import Mathlib

/-!
Verification of the rule-evaluation and risk-classification core of the
aws-infrasec-mcp-server repository.

The TypeScript sources are shallowly embedded: optional fields of the AWS SDK
records become `Option`, JavaScript truthiness tests on optional strings become
`isTruthyStr`, optional chaining followed by `?? false` becomes `Option.map`
followed by `Option.getD false`, and the EC2 API calls (DescribeSecurityGroups,
DescribeInstances) become lookups in an explicit environment holding the data
the calls would return.  Ports are modelled as `Int` (AWS permits -1 for ICMP).
-/

/-- Severity levels, from src/types/index.ts (`type Severity`). -/
inductive Severity where
  | HIGH
  | MEDIUM
  | LOW
deriving DecidableEq, Repr

/-- A catalog rule, from src/types/index.ts (`interface SecurityRule`). -/
structure SecurityRule where
  id : String
  name : String
  description : String
  severity : Severity
  port : Option Int
  protocol : Option String
  source : Option String
  recommendation : String
deriving DecidableEq, Repr

/-- The `port` field of a finding's `affectedRule` is `number | string` in
src/types/index.ts; we model the union with an explicit sum. -/
inductive PortValue where
  | num (n : Int)
  | str (s : String)
deriving DecidableEq, Repr

/-- The `affectedRule` payload of a finding, from src/types/index.ts. -/
structure AffectedRule where
  port : PortValue
  protocol : String
  source : String
deriving DecidableEq, Repr

/-- A security finding, from src/types/index.ts (`interface SecurityFinding`). -/
structure SecurityFinding where
  securityGroupId : String
  securityGroupName : String
  ruleId : String
  severity : Severity
  description : String
  recommendation : String
  affectedRule : Option AffectedRule
deriving DecidableEq, Repr

/-- An entry of `IpPermission.IpRanges` (AWS SDK); `CidrIp` is optional. -/
structure IpRange where
  cidrIp : Option String
deriving DecidableEq, Repr

/-- An entry of `IpPermission.Ipv6Ranges` (AWS SDK); `CidrIpv6` is optional. -/
structure Ipv6Range where
  cidrIpv6 : Option String
deriving DecidableEq, Repr

/-- An ingress permission record (AWS SDK `IpPermission`); every field the
analyzers read is optional in the SDK type. -/
structure IpPermission where
  fromPort : Option Int
  toPort : Option Int
  ipProtocol : Option String
  ipRanges : Option (List IpRange)
  ipv6Ranges : Option (List Ipv6Range)
deriving DecidableEq, Repr

/-- A security group (AWS SDK `SecurityGroup`). -/
structure SecurityGroup where
  groupId : Option String
  groupName : Option String
  ipPermissions : Option (List IpPermission)
deriving DecidableEq, Repr

/-- A group reference inside `Instance.SecurityGroups` (AWS SDK
`GroupIdentifier`). -/
structure GroupIdentifier where
  groupId : Option String
deriving DecidableEq, Repr

/-- The `State` field of an instance (AWS SDK `InstanceState`). -/
structure InstanceState where
  name : Option String
deriving DecidableEq, Repr

/-- An EC2 instance (AWS SDK `Instance`); only the fields the analyzers read. -/
structure Ec2Instance where
  instanceId : Option String
  publicIpAddress : Option String
  state : Option InstanceState
  securityGroups : Option (List GroupIdentifier)
deriving DecidableEq, Repr

/-- A reservation from a DescribeInstances response (AWS SDK `Reservation`). -/
structure Reservation where
  instances : Option (List Ec2Instance)
deriving DecidableEq, Repr

/-- JavaScript truthiness of an optional string: `undefined` and the empty
string are falsy, every other string is truthy. -/
def isTruthyStr : Option String → Bool
  | none => false
  | some s => s ≠ ""

/-- From src/config/constants.ts: `DANGEROUS_PORTS`. -/
def DANGEROUS_PORTS : List Int := [22, 3389, 3306, 5432, 1433, 6379, 27017, 5984]

/-- From src/config/constants.ts: `PORT_RANGE_THRESHOLD = 100`. -/
def PORT_RANGE_THRESHOLD : Int := 100

/-- From src/config/constants.ts: `EXPOSED_PORTS_MEDIUM_THRESHOLD = 5`. -/
def EXPOSED_PORTS_MEDIUM_THRESHOLD : Nat := 5

/-- The shape of the parsed rules file, `{ rules: SecurityRule[] }`
(src/config/rules-loader.ts). -/
structure RulesConfig where
  rules : List SecurityRule
deriving DecidableEq, Repr

/-- From src/config/rules-loader.ts, `loadSecurityRules` (uncached path).  The
file system and JSON.parse are modelled by two parameters: `fileExists` is the
result of `fs.existsSync`, and `parsed` is the outcome of
`fs.readFileSync` + `JSON.parse` (`none` when either throws, in which case the
surrounding try/catch returns the empty list).  The function is total: the
throw branch of the original is unreachable because every failure is caught. -/
def loadSecurityRules (fileExists : Bool) (parsed : Option RulesConfig) : List SecurityRule :=
  if !fileExists then
    []
  else
    match parsed with
    | none => []
    | some rulesConfig => rulesConfig.rules

/-- From src/config/rules-loader.ts: `getRuleById`. -/
def getRuleById (rules : List SecurityRule) (ruleId : String) : Option SecurityRule :=
  rules.find? fun rule => rule.id == ruleId

/-- The test `permission.IpRanges?.some(range => range.CidrIp === '0.0.0.0/0')
?? false` used by checkDangerousPorts, checkAllTrafficRules and
getExposedPorts. -/
def ipv4PublicB (permission : IpPermission) : Bool :=
  (permission.ipRanges.map fun l => l.any fun range => range.cidrIp == some "0.0.0.0/0").getD false

/-- The test `permission.Ipv6Ranges?.some(range => range.CidrIpv6 === '::/0')
?? false` used by checkDangerousPorts, checkAllTrafficRules and
getExposedPorts. -/
def ipv6PublicB (permission : IpPermission) : Bool :=
  (permission.ipv6Ranges.map fun l => l.any fun range => range.cidrIpv6 == some "::/0").getD false

/-- The finding pushed by `checkDangerousPorts` for a matching catalog rule
(src/analyzers/security-group-analyzer.ts, lines 82-90). -/
def dangerFinding (sgId sgName : String) (rule : SecurityRule) (rulePort : Int)
    (protocol publicSource : String) : SecurityFinding :=
  { securityGroupId := sgId
    securityGroupName := sgName
    ruleId := rule.id
    severity := rule.severity
    description := rule.description
    recommendation := rule.recommendation
    affectedRule := some { port := .num rulePort, protocol := protocol, source := publicSource } }

/-- From src/analyzers/security-group-analyzer.ts: `checkDangerousPorts`.  The
for-loop that pushes at most one finding per rule of `dangerousRules` is
rendered as `filterMap`. -/
def checkDangerousPorts (rules : List SecurityRule) (permission : IpPermission)
    (sgId sgName : String) : List SecurityFinding :=
  let fromPort := permission.fromPort
  let toPort := permission.toPort
  let protocol := permission.ipProtocol.getD "unknown"
  let ipv4Public := ipv4PublicB permission
  let ipv6Public := ipv6PublicB permission
  if !ipv4Public && !ipv6Public then
    []
  else
    let publicSource := if ipv4Public then "0.0.0.0/0" else "::/0"
    let dangerousRules := rules.filter fun rule =>
      rule.port.isSome && rule.source == some "0.0.0.0/0" && rule.protocol == some protocol
    dangerousRules.filterMap fun rule =>
      match fromPort, toPort, rule.port with
      | some fp, some tp, some rp =>
        if fp ≤ rp && rp ≤ tp then
          some (dangerFinding sgId sgName rule rp protocol publicSource)
        else
          none
      | _, _, _ => none

/-- The `ipv4Source ?? ipv6Source ?? 'unknown'` computation of
`checkWidePortRanges`: CidrIp of the first IPv4 range, else CidrIpv6 of the
first IPv6 range, else "unknown". -/
def firstListedSource (permission : IpPermission) : String :=
  let ipv4Source := permission.ipRanges.bind fun l => l.head?.bind IpRange.cidrIp
  let ipv6Source := permission.ipv6Ranges.bind fun l => l.head?.bind Ipv6Range.cidrIpv6
  ((ipv4Source).orElse fun _ => ipv6Source).getD "unknown"

/-- The finding pushed by `checkWidePortRanges`
(src/analyzers/security-group-analyzer.ts, lines 115-128). -/
def wideFinding (sgId sgName : String) (rule : SecurityRule) (fp tp : Int)
    (permission : IpPermission) : SecurityFinding :=
  { securityGroupId := sgId
    securityGroupName := sgName
    ruleId := rule.id
    severity := rule.severity
    description := rule.description ++ " (" ++ toString fp ++ "-" ++ toString tp ++ ")"
    recommendation := rule.recommendation
    affectedRule := some
      { port := .str (toString fp ++ "-" ++ toString tp)
        protocol := permission.ipProtocol.getD "unknown"
        source := firstListedSource permission } }

/-- From src/analyzers/security-group-analyzer.ts: `checkWidePortRanges`.
Note that, unlike the other two permission checks, it never consults the
public-exposure tests: it fires whenever both ports are defined, the span
exceeds the threshold and the designated rule is in the catalog. -/
def checkWidePortRanges (rules : List SecurityRule) (permission : IpPermission)
    (sgId sgName : String) : List SecurityFinding :=
  match permission.fromPort, permission.toPort with
  | some fp, some tp =>
    let portRange := tp - fp
    if portRange > PORT_RANGE_THRESHOLD then
      match getRuleById rules "sg-wide-port-range" with
      | some wideRangeRule => [wideFinding sgId sgName wideRangeRule fp tp permission]
      | none => []
    else
      []
  | _, _ => []

/-- From src/analyzers/security-group-analyzer.ts: `checkAllTrafficRules`. -/
def checkAllTrafficRules (rules : List SecurityRule) (permission : IpPermission)
    (sgId sgName : String) : List SecurityFinding :=
  if permission.ipProtocol == some "-1" then
    let ipv4Public := ipv4PublicB permission
    let ipv6Public := ipv6PublicB permission
    if ipv4Public || ipv6Public then
      match getRuleById rules "sg-all-traffic" with
      | some allTrafficRule =>
        [{ securityGroupId := sgId
           securityGroupName := sgName
           ruleId := allTrafficRule.id
           severity := allTrafficRule.severity
           description := allTrafficRule.description
           recommendation := allTrafficRule.recommendation
           affectedRule := some
             { port := .str "all"
               protocol := "all"
               source := if ipv4Public then "0.0.0.0/0" else "::/0" } }]
      | none => []
    else
      []
  else
    []

/-- From src/analyzers/security-group-analyzer.ts: `analyzeSecurityGroup`
(per-group findings from the three permission checks, in source order). -/
def analyzeSecurityGroup (rules : List SecurityRule) (sg : SecurityGroup) :
    List SecurityFinding :=
  let sgId := sg.groupId.getD "unknown"
  let sgName := sg.groupName.getD "unknown"
  match sg.ipPermissions with
  | none => []
  | some permissions =>
    permissions.flatMap fun permission =>
      checkDangerousPorts rules permission sgId sgName ++
      checkWidePortRanges rules permission sgId sgName ++
      checkAllTrafficRules rules permission sgId sgName

/-- The used-group-id set built by `findUnusedSecurityGroups` from the
DescribeInstances response: every truthy `GroupId` of every instance of every
reservation (a list models the `Set`; only membership is consumed). -/
def usedSecurityGroupIds (reservations : List Reservation) : List String :=
  reservations.flatMap fun reservation =>
    (reservation.instances.getD []).flatMap fun inst =>
      (inst.securityGroups.getD []).filterMap fun sg =>
        match sg.groupId with
        | some gid => if gid ≠ "" then some gid else none
        | none => none

/-- The finding pushed by `findUnusedSecurityGroups` for an unused group
(src/analyzers/security-group-analyzer.ts, lines 178-186). -/
def unusedFinding (rule : SecurityRule) (sg : SecurityGroup) : SecurityFinding :=
  { securityGroupId := sg.groupId.getD ""
    securityGroupName := sg.groupName.getD "unknown"
    ruleId := rule.id
    severity := rule.severity
    description := rule.description
    recommendation := rule.recommendation
    affectedRule := none }

/-- From src/analyzers/security-group-analyzer.ts: `findUnusedSecurityGroups`.
The DescribeInstances call is modelled by passing the reservations it would
return.  `sg.GroupId && !used.has(sg.GroupId) && sg.GroupName !== 'default'`
is rendered field-accurately, including JavaScript truthiness of `GroupId`. -/
def findUnusedSecurityGroups (rules : List SecurityRule) (reservations : List Reservation)
    (securityGroups : List SecurityGroup) : List SecurityFinding :=
  let used := usedSecurityGroupIds reservations
  match getRuleById rules "sg-unused" with
  | none => []
  | some unusedRule =>
    securityGroups.filterMap fun sg =>
      match sg.groupId with
      | some gid =>
        if gid ≠ "" && !used.contains gid && sg.groupName != some "default" then
          some (unusedFinding unusedRule sg)
        else
          none
      | none => none

/-- From src/analyzers/security-group-analyzer.ts: `generateSummary`. -/
structure SecurityGroupSummary where
  totalGroups : Nat
  highRiskFindings : Nat
  mediumRiskFindings : Nat
  lowRiskFindings : Nat
deriving DecidableEq, Repr

/-- From src/analyzers/security-group-analyzer.ts: `generateSummary`. -/
def generateSummary (findings : List SecurityFinding) (totalGroups : Nat) :
    SecurityGroupSummary :=
  { totalGroups := totalGroups
    highRiskFindings := (findings.filter fun f => f.severity == Severity.HIGH).length
    mediumRiskFindings := (findings.filter fun f => f.severity == Severity.MEDIUM).length
    lowRiskFindings := (findings.filter fun f => f.severity == Severity.LOW).length }

/-- The data an EC2 client would serve: `reservations` is the
DescribeInstances response, `securityGroups` the full group catalog from
which DescribeSecurityGroups answers. -/
structure EC2Env where
  reservations : List Reservation
  securityGroups : List SecurityGroup
deriving DecidableEq, Repr

/-- A DescribeSecurityGroupsCommand with optional `GroupIds`: absent ids
return the whole catalog, explicit ids return the matching groups. -/
def describeSecurityGroupsCmd (env : EC2Env) (groupIds : Option (List String)) :
    List SecurityGroup :=
  match groupIds with
  | none => env.securityGroups
  | some ids =>
    env.securityGroups.filter fun sg =>
      match sg.groupId with
      | some gid => ids.contains gid
      | none => false

/-- The result shape of `SecurityGroupAnalyzer.analyze`
(src/types/index.ts, `SecurityGroupAnalysisResult`). -/
structure SecurityGroupAnalysisResult where
  summary : SecurityGroupSummary
  findings : List SecurityFinding
deriving DecidableEq, Repr

/-- From src/analyzers/security-group-analyzer.ts: `SecurityGroupAnalyzer.analyze`
(success path): per-group findings from the three permission checks, then the
unused-group findings, then the summary. -/
def sgAnalyze (rules : List SecurityRule) (env : EC2Env)
    (groupIds : Option (List String)) : SecurityGroupAnalysisResult :=
  let securityGroups := describeSecurityGroupsCmd env groupIds
  let findings :=
    securityGroups.flatMap (analyzeSecurityGroup rules) ++
    findUnusedSecurityGroups rules env.reservations securityGroups
  { summary := generateSummary findings securityGroups.length
    findings := findings }

/-- The integer ports visited by `for (let port = FromPort; port <= ToPort;
port++)`. -/
def portsRange (fp tp : Int) : List Int :=
  (List.range (tp - fp + 1).toNat).map fun i : Nat => fp + (i : Int)

/-- The body of the port loop of `getExposedPorts`:
`if (!exposedPorts.includes(port)) exposedPorts.push(port)`. -/
def addPort (acc : List Int) (port : Int) : List Int :=
  if acc.contains port then acc else acc ++ [port]

/-- The per-permission step of `getExposedPorts`: when the permission is
publicly exposed and both ports are defined, push every port of the range not
already collected. -/
def collectPermission (acc : List Int) (permission : IpPermission) : List Int :=
  if ipv4PublicB permission || ipv6PublicB permission then
    match permission.fromPort, permission.toPort with
    | some fp, some tp => (portsRange fp tp).foldl addPort acc
    | _, _ => acc
  else
    acc

/-- The per-group step of `getExposedPorts`: iterate `sg.IpPermissions ?? []`. -/
def collectGroup (acc : List Int) (sg : SecurityGroup) : List Int :=
  (sg.ipPermissions.getD []).foldl collectPermission acc

/-- The ascending numeric sort `exposedPorts.sort((a, b) => a - b)`. -/
def sortInts (l : List Int) : List Int :=
  List.insertionSort (fun a b : Int => a ≤ b) l

/-- The collection phase of `getExposedPorts` over the groups returned by
DescribeSecurityGroups, followed by the ascending sort. -/
def getExposedPortsFrom (groups : List SecurityGroup) : List Int :=
  sortInts (groups.foldl collectGroup [])

/-- From src/analyzers/public-instance-analyzer.ts: `getExposedPorts`.  The
DescribeSecurityGroups call is answered from the environment. -/
def getExposedPorts (env : EC2Env) (securityGroupIds : List String) : List Int :=
  if securityGroupIds.length = 0 then
    []
  else
    getExposedPortsFrom (describeSecurityGroupsCmd env (some securityGroupIds))

/-- From src/analyzers/public-instance-analyzer.ts: `assessRisk`. -/
def assessRisk (exposedPorts : List Int) : Severity :=
  let hasDangerousPorts := exposedPorts.any fun port => DANGEROUS_PORTS.contains port
  if hasDangerousPorts then
    Severity.HIGH
  else if exposedPorts.length > EXPOSED_PORTS_MEDIUM_THRESHOLD then
    Severity.MEDIUM
  else
    Severity.LOW

/-- From src/analyzers/public-instance-analyzer.ts: `generateRecommendations`. -/
def generateInstanceRecommendations (exposedPorts : List Int) : List String :=
  let exposedDangerousPorts := exposedPorts.filter fun port => DANGEROUS_PORTS.contains port
  (if exposedDangerousPorts.length > 0 then
    ["Restrict access to dangerous ports: " ++
      String.intercalate ", " (exposedDangerousPorts.map toString)]
  else []) ++
  (if exposedPorts.length > EXPOSED_PORTS_MEDIUM_THRESHOLD then
    ["Consider reducing the number of exposed ports"]
  else []) ++
  (if exposedPorts.length > 0 then
    ["Use Application Load Balancer or NAT Gateway for controlled access",
     "Consider moving to private subnet with VPN access"]
  else [])

/-- The per-instance record of the public-instance analysis
(src/types/index.ts, `PublicInstanceInfo`). -/
structure PublicInstanceInfo where
  instanceId : String
  publicIp : String
  securityGroups : List String
  exposedPorts : List Int
  riskLevel : Severity
  recommendations : List String
deriving DecidableEq, Repr

/-- The summary of the public-instance analysis (src/types/index.ts,
`PublicInstanceSummary`). -/
structure PublicInstanceSummary where
  totalInstances : Nat
  publicInstances : Nat
  totalExposedPorts : Nat
deriving DecidableEq, Repr

/-- The result of `PublicInstanceAnalyzer.analyze` (src/types/index.ts,
`PublicInstanceAnalysisResult`). -/
structure PublicInstanceAnalysisResult where
  summary : PublicInstanceSummary
  instances : List PublicInstanceInfo
deriving DecidableEq, Repr

/-- The attached-group-id extraction of `PublicInstanceAnalyzer.analyze`:
`instance.SecurityGroups?.map(sg => sg.GroupId).filter(Boolean) ?? []`. -/
def instanceSecurityGroupIds (inst : Ec2Instance) : List String :=
  (inst.securityGroups.getD []).filterMap fun sg =>
    match sg.groupId with
    | some gid => if gid ≠ "" then some gid else none
    | none => none

/-- The record pushed onto `publicInstances` for a running public instance
(src/analyzers/public-instance-analyzer.ts, lines 31-38). -/
def buildPublicInstanceInfo (env : EC2Env) (inst : Ec2Instance) : PublicInstanceInfo :=
  let securityGroupIds := instanceSecurityGroupIds inst
  let exposedPorts := getExposedPorts env securityGroupIds
  { instanceId := inst.instanceId.getD "unknown"
    publicIp := inst.publicIpAddress.getD ""
    securityGroups := securityGroupIds
    exposedPorts := exposedPorts
    riskLevel := assessRisk exposedPorts
    recommendations := generateInstanceRecommendations exposedPorts }

/-- The guard `instance.PublicIpAddress && instance.State?.Name === 'running'`
of `PublicInstanceAnalyzer.analyze`. -/
def isRunningPublic (inst : Ec2Instance) : Bool :=
  isTruthyStr inst.publicIpAddress && (inst.state.bind InstanceState.name) == some "running"

/-- From src/analyzers/public-instance-analyzer.ts: `PublicInstanceAnalyzer.analyze`
(success path).  The loop that conditionally pushes a record per instance is
rendered as `filterMap`. -/
def piAnalyze (env : EC2Env) : PublicInstanceAnalysisResult :=
  let allInstances := env.reservations.flatMap fun reservation => reservation.instances.getD []
  let publicInstances := allInstances.filterMap fun inst =>
    if isRunningPublic inst then some (buildPublicInstanceInfo env inst) else none
  let totalExposedPorts := publicInstances.foldl (fun sum i => sum + i.exposedPorts.length) 0
  { summary :=
      { totalInstances := allInstances.length
        publicInstances := publicInstances.length
        totalExposedPorts := totalExposedPorts }
    instances := publicInstances }

/-- The validated input of the analyze_security_groups tool
(src/tools/security-groups.ts, `SecurityGroupAnalysisSchema`); every field is
optional in the schema, `includeUnused` defaulting to true on parse. -/
structure SecurityGroupAnalysisInput where
  region : Option String
  groupIds : Option (List String)
  includeUnused : Option Bool
deriving DecidableEq, Repr

/-- The `riskDistribution` block of the tool output
(src/types/index.ts, `SecurityGroupToolOutput`). -/
structure RiskDistribution where
  high : Nat
  medium : Nat
  low : Nat
deriving DecidableEq, Repr

/-- The output of the analyze_security_groups tool (src/types/index.ts,
`SecurityGroupToolOutput`); `riskDistribution` is spread into `summary` in
TypeScript and modelled as a sibling field here. -/
structure SecurityGroupToolOutput where
  analysisType : String
  region : String
  timestamp : String
  summary : SecurityGroupSummary
  riskDistribution : RiskDistribution
  findings : List SecurityFinding
  recommendations : List String
deriving DecidableEq, Repr

/-- From src/tools/security-groups.ts: `SecurityGroupTool.generateRecommendations`. -/
def generateToolRecommendations (findings : List SecurityFinding) : List String :=
  let highRiskCount := (findings.filter fun f => f.severity == Severity.HIGH).length
  let mediumRiskCount := (findings.filter fun f => f.severity == Severity.MEDIUM).length
  (if highRiskCount > 0 then
    ["Address " ++ toString highRiskCount ++ " HIGH severity findings immediately",
     "Implement principle of least privilege for security group rules",
     "Use specific IP ranges instead of 0.0.0.0/0 where possible"]
  else []) ++
  (if mediumRiskCount > 0 then
    ["Review " ++ toString mediumRiskCount ++ " MEDIUM severity findings",
     "Consider implementing a security group naming convention"]
  else []) ++
  ["Regular security group audits should be performed",
   "Consider using AWS Config for continuous compliance monitoring",
   "Implement Infrastructure as Code (IaC) for consistent security group management"]

/-- From src/tools/security-groups.ts: `SecurityGroupTool.execute` (success
path).  `defaultRegion` models `awsClient.getRegion()` and `timestamp` the
clock read `new Date().toISOString()`.  The zod parse binds
`includeUnused ?? true`, which the rest of the body never reads. -/
def securityGroupToolExecute (rules : List SecurityRule) (env : EC2Env)
    (defaultRegion timestamp : String) (input : SecurityGroupAnalysisInput) :
    SecurityGroupToolOutput :=
  let includeUnused := input.includeUnused.getD true
  let region := input.region.getD defaultRegion
  let analysisResult := sgAnalyze rules env input.groupIds
  let _ := includeUnused
  { analysisType := "security-group"
    region := region
    timestamp := timestamp
    summary := analysisResult.summary
    riskDistribution :=
      { high := analysisResult.summary.highRiskFindings
        medium := analysisResult.summary.mediumRiskFindings
        low := analysisResult.summary.lowRiskFindings }
    findings := analysisResult.findings
    recommendations := generateToolRecommendations analysisResult.findings }

/-! Shared list lemmas used by several claim proofs. -/

/-- A conditional filterMap is a filter followed by a map. -/
theorem filterMap_ite_eq_filter_map {α β : Type} (p : α → Bool) (f : α → β) (l : List α) :
    (l.filterMap fun a => if p a then some (f a) else none) = (l.filter p).map f := by
  induction l with
  | nil => rfl
  | cons a l ih =>
    by_cases h : p a <;> simp [List.filterMap_cons, List.filter_cons, h, ih]

/-- Fusing a filter into the filterMap that follows it. -/
theorem filter_filterMap_fuse {α β : Type} (p : α → Bool) (f : α → Option β) (l : List α) :
    (l.filter p).filterMap f = l.filterMap fun a => if p a then f a else none := by
  induction l with
  | nil => rfl
  | cons a l ih =>
    by_cases h : p a <;> simp [List.filter_cons, List.filterMap_cons, h, ih]

/-! Lemmas about the port-collection loop of getExposedPorts. -/

theorem mem_portsRange {fp tp p : Int} : p ∈ portsRange fp tp ↔ fp ≤ p ∧ p ≤ tp := by
  unfold portsRange
  rw [List.mem_map]
  constructor
  · rintro ⟨i, hi, rfl⟩
    rw [List.mem_range, Int.lt_toNat] at hi
    omega
  · rintro ⟨h1, h2⟩
    refine ⟨(p - fp).toNat, ?_, ?_⟩
    · rw [List.mem_range, Int.toNat_lt_toNat] <;> omega
    · rw [Int.toNat_of_nonneg (by omega : (0 : Int) ≤ p - fp)]
      omega

theorem mem_addPort {acc : List Int} {q x : Int} : x ∈ addPort acc q ↔ x ∈ acc ∨ x = q := by
  by_cases h : acc.contains q
  · rw [addPort, if_pos h]
    have hq : q ∈ acc := by simpa using h
    constructor
    · exact fun hx => Or.inl hx
    · rintro (hx | rfl)
      · exact hx
      · exact hq
  · rw [addPort, if_neg h]
    simp

theorem nodup_addPort {acc : List Int} {q : Int} (h : acc.Nodup) : (addPort acc q).Nodup := by
  by_cases hc : acc.contains q
  · rwa [addPort, if_pos hc]
  · rw [addPort, if_neg hc]
    rw [List.nodup_append]
    refine ⟨h, List.nodup_singleton q, ?_⟩
    intro a ha hq
    rw [List.mem_singleton] at hq
    subst hq
    exact hc (by simpa using ha)

theorem mem_foldl_addPort (ports : List Int) (acc : List Int) (x : Int) :
    x ∈ ports.foldl addPort acc ↔ x ∈ acc ∨ x ∈ ports := by
  induction ports generalizing acc with
  | nil => simp
  | cons q qs ih =>
    rw [List.foldl_cons, ih, mem_addPort]
    simp
    tauto

theorem nodup_foldl_addPort (ports : List Int) (acc : List Int) (h : acc.Nodup) :
    (ports.foldl addPort acc).Nodup := by
  induction ports generalizing acc with
  | nil => exact h
  | cons q qs ih => exact ih _ (nodup_addPort h)

theorem mem_collectPermission (acc : List Int) (permission : IpPermission) (x : Int) :
    x ∈ collectPermission acc permission ↔
      x ∈ acc ∨
        ((ipv4PublicB permission = true ∨ ipv6PublicB permission = true) ∧
          ∃ fp tp, permission.fromPort = some fp ∧ permission.toPort = some tp ∧
            fp ≤ x ∧ x ≤ tp) := by
  unfold collectPermission
  by_cases hpub : (ipv4PublicB permission || ipv6PublicB permission) = true
  · rw [if_pos hpub]
    rw [Bool.or_eq_true] at hpub
    cases hfp : permission.fromPort with
    | none => simp [hfp]
    | some fp =>
      cases htp : permission.toPort with
      | none => simp [hfp, htp]
      | some tp =>
        rw [mem_foldl_addPort]
        simp only [hfp, htp, mem_portsRange, Option.some.injEq]
        constructor
        · rintro (hx | hx)
          · exact Or.inl hx
          · exact Or.inr ⟨hpub, fp, tp, rfl, rfl, hx.1, hx.2⟩
        · rintro (hx | ⟨_, fp', tp', hfp', htp', h1, h2⟩)
          · exact Or.inl hx
          · subst hfp'
            subst htp'
            exact Or.inr ⟨h1, h2⟩
  · rw [if_neg hpub]
    rw [Bool.or_eq_true] at hpub
    push_neg at hpub
    constructor
    · exact fun hx => Or.inl hx
    · rintro (hx | ⟨hp, _⟩)
      · exact hx
      · rcases hp with hp | hp
        · exact absurd hp hpub.1
        · exact absurd hp hpub.2

theorem nodup_collectPermission (acc : List Int) (permission : IpPermission)
    (h : acc.Nodup) : (collectPermission acc permission).Nodup := by
  unfold collectPermission
  by_cases hpub : (ipv4PublicB permission || ipv6PublicB permission) = true
  · rw [if_pos hpub]
    cases permission.fromPort with
    | none => exact h
    | some fp =>
      cases permission.toPort with
      | none => exact h
      | some tp => exact nodup_foldl_addPort _ _ h
  · rwa [if_neg hpub]

theorem mem_foldl_collectPermission (perms : List IpPermission) (acc : List Int) (x : Int) :
    x ∈ perms.foldl collectPermission acc ↔
      x ∈ acc ∨
        ∃ permission ∈ perms,
          (ipv4PublicB permission = true ∨ ipv6PublicB permission = true) ∧
            ∃ fp tp, permission.fromPort = some fp ∧ permission.toPort = some tp ∧
              fp ≤ x ∧ x ≤ tp := by
  induction perms generalizing acc with
  | nil => simp
  | cons q qs ih =>
    rw [List.foldl_cons, ih, mem_collectPermission]
    simp only [List.mem_cons]
    constructor
    · rintro ((hx | hx) | ⟨p, hp, hx⟩)
      · exact Or.inl hx
      · exact Or.inr ⟨q, Or.inl rfl, hx⟩
      · exact Or.inr ⟨p, Or.inr hp, hx⟩
    · rintro (hx | ⟨p, hp | hp, hx⟩)
      · exact Or.inl (Or.inl hx)
      · subst hp
        exact Or.inl (Or.inr hx)
      · exact Or.inr ⟨p, hp, hx⟩

theorem nodup_foldl_collectPermission (perms : List IpPermission) (acc : List Int)
    (h : acc.Nodup) : (perms.foldl collectPermission acc).Nodup := by
  induction perms generalizing acc with
  | nil => exact h
  | cons q qs ih => exact ih _ (nodup_collectPermission _ _ h)

theorem mem_foldl_collectGroup (groups : List SecurityGroup) (acc : List Int) (x : Int) :
    x ∈ groups.foldl collectGroup acc ↔
      x ∈ acc ∨
        ∃ sg ∈ groups, ∃ permission ∈ sg.ipPermissions.getD [],
          (ipv4PublicB permission = true ∨ ipv6PublicB permission = true) ∧
            ∃ fp tp, permission.fromPort = some fp ∧ permission.toPort = some tp ∧
              fp ≤ x ∧ x ≤ tp := by
  induction groups generalizing acc with
  | nil => simp
  | cons g gs ih =>
    rw [List.foldl_cons, ih]
    unfold collectGroup
    rw [mem_foldl_collectPermission]
    simp only [List.mem_cons]
    constructor
    · rintro ((hx | hx) | ⟨sg, hsg, hx⟩)
      · exact Or.inl hx
      · obtain ⟨p, hp, hx⟩ := hx
        exact Or.inr ⟨g, Or.inl rfl, p, hp, hx⟩
      · exact Or.inr ⟨sg, Or.inr hsg, hx⟩
    · rintro (hx | ⟨sg, hsg | hsg, hx⟩)
      · exact Or.inl (Or.inl hx)
      · subst hsg
        obtain ⟨p, hp, hx⟩ := hx
        exact Or.inl (Or.inr ⟨p, hp, hx⟩)
      · exact Or.inr ⟨sg, hsg, hx⟩

theorem nodup_foldl_collectGroup (groups : List SecurityGroup) (acc : List Int)
    (h : acc.Nodup) : (groups.foldl collectGroup acc).Nodup := by
  induction groups generalizing acc with
  | nil => exact h
  | cons g gs ih => exact ih _ (nodup_foldl_collectPermission _ _ h)

/-! Concrete fixtures, mirroring the rule and permission records of the
repository's test suites. -/

/-- The SSH point rule of the test catalogs. -/
def sshRuleEx : SecurityRule :=
  { id := "sg-ssh-world"
    name := "SSH Open to World"
    description := "SSH port 22 is accessible from anywhere"
    severity := Severity.HIGH
    port := some 22
    protocol := some "tcp"
    source := some "0.0.0.0/0"
    recommendation := "Restrict SSH access" }

/-- The designated wide-port-range rule of the test catalogs. -/
def wideRuleEx : SecurityRule :=
  { id := "sg-wide-port-range"
    name := "Wide Port Range"
    description := "Wide port range"
    severity := Severity.MEDIUM
    port := none
    protocol := none
    source := none
    recommendation := "Restrict ports" }

/-- The designated unused-group rule of the test catalogs. -/
def unusedRuleEx : SecurityRule :=
  { id := "sg-unused"
    name := "Unused Security Group"
    description := "Security group is not attached"
    severity := Severity.LOW
    port := none
    protocol := none
    source := none
    recommendation := "Remove unused" }

/-- The designated all-traffic rule of the test catalogs. -/
def allTrafficRuleEx : SecurityRule :=
  { id := "sg-all-traffic"
    name := "All Traffic Allowed"
    description := "All traffic allowed"
    severity := Severity.HIGH
    port := none
    protocol := none
    source := none
    recommendation := "Restrict traffic" }

/-- A permission open to the world on port 22/tcp. -/
def publicSshPermEx : IpPermission :=
  { fromPort := some 22
    toPort := some 22
    ipProtocol := some "tcp"
    ipRanges := some [{ cidrIp := some "0.0.0.0/0" }]
    ipv6Ranges := none }

/-- A permission with a wide port span whose only source is the private CIDR
10.0.0.0/8 (the fixture of the analyzer's wide-port-range test). -/
def privateWidePermEx : IpPermission :=
  { fromPort := some 1000
    toPort := some 2000
    ipProtocol := some "tcp"
    ipRanges := some [{ cidrIp := some "10.0.0.0/8" }]
    ipv6Ranges := none }

/-- A publicly exposed permission with a wide port span. -/
def publicWidePermEx : IpPermission :=
  { fromPort := some 1000
    toPort := some 2000
    ipProtocol := some "tcp"
    ipRanges := some [{ cidrIp := some "0.0.0.0/0" }]
    ipv6Ranges := none }

/-- C1 counterexample: a permission that is NOT publicly exposed (its only
IPv4 range is 10.0.0.0/8, and it has no IPv6 ranges) still produces one
finding — the wide-port-range check never consults the public-exposure
tests.  This refutes the claim that non-public permissions yield zero
findings of any kind. -/
theorem nonPublic_permission_yields_wide_finding_cex :
    (ipv4PublicB privateWidePermEx = false ∧ ipv6PublicB privateWidePermEx = false) ∧
    (checkDangerousPorts [wideRuleEx] privateWidePermEx "sg-2" "wide-range-sg" ++
     checkWidePortRanges [wideRuleEx] privateWidePermEx "sg-2" "wide-range-sg" ++
     checkAllTrafficRules [wideRuleEx] privateWidePermEx "sg-2" "wide-range-sg").length = 1 := by
  decide

/-- C1 (amended): a permission that is not publicly exposed yields no
dangerous-port finding and no all-traffic finding; the wide-port-range check
is independent of public exposure and may still fire. -/
theorem nonPublic_no_dangerous_no_allTraffic (rules : List SecurityRule)
    (permission : IpPermission) (sgId sgName : String)
    (h4 : ipv4PublicB permission = false) (h6 : ipv6PublicB permission = false) :
    checkDangerousPorts rules permission sgId sgName = [] ∧
    checkAllTrafficRules rules permission sgId sgName = [] := by
  constructor
  · simp [checkDangerousPorts, h4, h6]
  · simp [checkAllTrafficRules, h4, h6]

/-- Witness for the amended C1 theorem at the concrete non-public fixture. -/
theorem nonPublic_no_dangerous_no_allTraffic_witness :
    checkDangerousPorts [sshRuleEx] privateWidePermEx "sg-2" "wide-range-sg" = [] ∧
    checkAllTrafficRules [sshRuleEx] privateWidePermEx "sg-2" "wide-range-sg" = [] :=
  nonPublic_no_dangerous_no_allTraffic [sshRuleEx] privateWidePermEx "sg-2" "wide-range-sg"
    (by decide) (by decide)

/-- C3: when both ports are defined, the span strictly exceeds the threshold
100 and the catalog holds the rule with id "sg-wide-port-range", exactly one
finding is emitted; its description appends the literal span, its
affectedRule.port is the string span, and its source is the first listed IPv4
range, else the first IPv6 range, else "unknown" (firstListedSource). -/
theorem checkWidePortRanges_emits_single_finding (rules : List SecurityRule)
    (permission : IpPermission) (sgId sgName : String) (fp tp : Int) (rule : SecurityRule)
    (hfp : permission.fromPort = some fp) (htp : permission.toPort = some tp)
    (hspan : tp - fp > PORT_RANGE_THRESHOLD)
    (hrule : getRuleById rules "sg-wide-port-range" = some rule) :
    checkWidePortRanges rules permission sgId sgName =
      [{ securityGroupId := sgId
         securityGroupName := sgName
         ruleId := rule.id
         severity := rule.severity
         description := rule.description ++ " (" ++ toString fp ++ "-" ++ toString tp ++ ")"
         recommendation := rule.recommendation
         affectedRule := some
           { port := PortValue.str (toString fp ++ "-" ++ toString tp)
             protocol := permission.ipProtocol.getD "unknown"
             source := firstListedSource permission } }] := by
  unfold checkWidePortRanges
  rw [hfp, htp]
  simp [hspan, hrule, wideFinding]

/-- Witness for C3 at the concrete Scenario-B fixture (1000-2000/tcp, public
IPv4, MEDIUM rule). -/
theorem checkWidePortRanges_emits_single_finding_witness :
    checkWidePortRanges [wideRuleEx] publicWidePermEx "sg-2" "wide-range-sg" =
      [{ securityGroupId := "sg-2"
         securityGroupName := "wide-range-sg"
         ruleId := wideRuleEx.id
         severity := wideRuleEx.severity
         description := wideRuleEx.description ++ " (" ++ toString (1000 : Int) ++ "-" ++
           toString (2000 : Int) ++ ")"
         recommendation := wideRuleEx.recommendation
         affectedRule := some
           { port := PortValue.str (toString (1000 : Int) ++ "-" ++ toString (2000 : Int))
             protocol := publicWidePermEx.ipProtocol.getD "unknown"
             source := firstListedSource publicWidePermEx } }] :=
  checkWidePortRanges_emits_single_finding [wideRuleEx] publicWidePermEx "sg-2" "wide-range-sg"
    1000 2000 wideRuleEx rfl rfl (by decide) (by decide)

/-- C4: assessRisk returns HIGH iff some exposed port is in DANGEROUS_PORTS;
otherwise MEDIUM iff more than 5 ports are exposed; otherwise LOW.  It is a
function of the exposed-port list alone by construction. -/
theorem assessRisk_classification (exposedPorts : List Int) :
    (assessRisk exposedPorts = Severity.HIGH ↔ ∃ p ∈ exposedPorts, p ∈ DANGEROUS_PORTS) ∧
    (assessRisk exposedPorts = Severity.MEDIUM ↔
      (¬∃ p ∈ exposedPorts, p ∈ DANGEROUS_PORTS) ∧ exposedPorts.length > 5) ∧
    (assessRisk exposedPorts = Severity.LOW ↔
      (¬∃ p ∈ exposedPorts, p ∈ DANGEROUS_PORTS) ∧ exposedPorts.length ≤ 5) := by
  have hiff : (exposedPorts.any fun port => DANGEROUS_PORTS.contains port) = true ↔
      ∃ p ∈ exposedPorts, p ∈ DANGEROUS_PORTS := by
    simp [List.any_eq_true]
  unfold assessRisk
  by_cases hd : (exposedPorts.any fun port => DANGEROUS_PORTS.contains port) = true
  · rw [if_pos hd]
    have hex := hiff.mp hd
    exact ⟨⟨fun _ => hex, fun _ => rfl⟩,
      ⟨fun h => Severity.noConfusion h, fun h => absurd hex h.1⟩,
      ⟨fun h => Severity.noConfusion h, fun h => absurd hex h.1⟩⟩
  · rw [if_neg hd]
    have hnex : ¬∃ p ∈ exposedPorts, p ∈ DANGEROUS_PORTS := fun hx => hd (hiff.mpr hx)
    have hE : EXPOSED_PORTS_MEDIUM_THRESHOLD = 5 := rfl
    by_cases hl : exposedPorts.length > 5
    · have hl' : exposedPorts.length > EXPOSED_PORTS_MEDIUM_THRESHOLD := by
        rw [hE]
        exact hl
      rw [if_pos hl']
      exact ⟨⟨fun h => Severity.noConfusion h, fun h => absurd h hnex⟩,
        ⟨fun _ => ⟨hnex, hl⟩, fun _ => rfl⟩,
        ⟨fun h => Severity.noConfusion h, fun h => absurd hl (Nat.not_lt.mpr h.2)⟩⟩
    · have hl' : ¬exposedPorts.length > EXPOSED_PORTS_MEDIUM_THRESHOLD := by
        rw [hE]
        exact hl
      rw [if_neg hl']
      have hl5 : exposedPorts.length ≤ 5 := Nat.not_lt.mp hl
      exact ⟨⟨fun h => Severity.noConfusion h, fun h => absurd h hnex⟩,
        ⟨fun h => Severity.noConfusion h, fun h => absurd h.2 hl⟩,
        ⟨fun _ => ⟨hnex, hl5⟩, fun _ => rfl⟩⟩

/-- C8: when the catalog file does not exist, or reading/parsing it fails,
loadSecurityRules returns the empty rule list; the function is total, so the
throw branch of the original is unreachable. -/
theorem loadSecurityRules_failure_empty (fileExists : Bool) (parsed : Option RulesConfig)
    (h : fileExists = false ∨ parsed = none) :
    loadSecurityRules fileExists parsed = [] := by
  rcases h with h | h
  · subst h
    rfl
  · subst h
    cases fileExists <;> rfl

/-- Witness for C8: a missing file and a malformed file both load as the
empty catalog. -/
theorem loadSecurityRules_failure_empty_witness :
    loadSecurityRules false none = [] ∧ loadSecurityRules true none = [] :=
  ⟨loadSecurityRules_failure_empty false none (Or.inl rfl),
   loadSecurityRules_failure_empty true none (Or.inr rfl)⟩

/-- Congruence for flatMap over a common list. -/
theorem listFlatMap_congr {α β : Type} {l : List α} {f g : α → List β}
    (h : ∀ a ∈ l, f a = g a) : l.flatMap f = l.flatMap g := by
  induction l with
  | nil => rfl
  | cons a l ih =>
    rw [List.flatMap_cons, List.flatMap_cons, h a (List.mem_cons_self a l),
      ih fun x hx => h x (List.mem_cons_of_mem a hx)]

/-- Filtering by membership in an empty id list keeps no group. -/
theorem filter_contains_nil (l : List SecurityGroup) :
    (l.filter fun sg =>
      match sg.groupId with
      | some gid => ([] : List String).contains gid
      | none => false) = [] := by
  induction l with
  | nil => rfl
  | cons sg sgs ih =>
    rw [List.filter_cons]
    have hcond : (match sg.groupId with
        | some gid => ([] : List String).contains gid
        | none => false) = false := by
      cases sg.groupId <;> rfl
    rw [hcond, if_neg Bool.false_ne_true]
    exact ih

/-- Describing an empty id list returns no groups. -/
theorem describe_nil_eq_nil (env : EC2Env) : describeSecurityGroupsCmd env (some []) = [] := by
  unfold describeSecurityGroupsCmd
  exact filter_contains_nil env.securityGroups

/-- C5: the exposedPorts list computed for a set of attached groups is
strictly ascending and duplicate-free, and a port belongs to it exactly when
some returned group has a publicly exposed permission with both ports defined
whose inclusive range [fromPort, toPort] contains the port. -/
theorem getExposedPorts_sorted_nodup_union (env : EC2Env) (securityGroupIds : List String) :
    (getExposedPorts env securityGroupIds).Sorted (· < ·) ∧
    (getExposedPorts env securityGroupIds).Nodup ∧
    ∀ p : Int, p ∈ getExposedPorts env securityGroupIds ↔
      ∃ sg ∈ describeSecurityGroupsCmd env (some securityGroupIds),
        ∃ permission ∈ sg.ipPermissions.getD [],
          (ipv4PublicB permission = true ∨ ipv6PublicB permission = true) ∧
            ∃ fp tp, permission.fromPort = some fp ∧ permission.toPort = some tp ∧
              fp ≤ p ∧ p ≤ tp := by
  have key : ∀ groups : List SecurityGroup,
      (getExposedPortsFrom groups).Sorted (· < ·) ∧ (getExposedPortsFrom groups).Nodup ∧
      ∀ p : Int, p ∈ getExposedPortsFrom groups ↔
        ∃ sg ∈ groups, ∃ permission ∈ sg.ipPermissions.getD [],
          (ipv4PublicB permission = true ∨ ipv6PublicB permission = true) ∧
            ∃ fp tp, permission.fromPort = some fp ∧ permission.toPort = some tp ∧
              fp ≤ p ∧ p ≤ tp := by
    intro groups
    have hnd : (groups.foldl collectGroup []).Nodup :=
      nodup_foldl_collectGroup groups [] List.nodup_nil
    have hndSorted : (getExposedPortsFrom groups).Nodup := by
      unfold getExposedPortsFrom sortInts
      exact ((List.perm_insertionSort _ _).nodup_iff).mpr hnd
    refine ⟨?_, hndSorted, ?_⟩
    · have hs := List.sorted_insertionSort (fun a b : Int => a ≤ b) (groups.foldl collectGroup [])
      exact List.Sorted.lt_of_le hs hndSorted
    · intro p
      unfold getExposedPortsFrom sortInts
      rw [List.mem_insertionSort, mem_foldl_collectGroup]
      simp
  have hEq : getExposedPorts env securityGroupIds =
      getExposedPortsFrom (describeSecurityGroupsCmd env (some securityGroupIds)) := by
    unfold getExposedPorts
    by_cases h0 : securityGroupIds.length = 0
    · rw [if_pos h0]
      have hids : securityGroupIds = [] := List.length_eq_zero.mp h0
      subst hids
      rw [describe_nil_eq_nil]
      rfl
    · rw [if_neg h0]
  rw [hEq]
  exact key _

/-- C7: each named rule's absence is handled on its own.  If the catalog
lacks sg-wide-port-range, the wide-range check emits nothing and the full
analysis equals the dangerous-port, all-traffic and unused-group categories
computed unchanged on the same catalog; likewise when only sg-all-traffic or
only sg-unused is missing.  All functions are total, so no error is raised. -/
theorem missing_rule_category_skipped (rules : List SecurityRule) :
    (getRuleById rules "sg-wide-port-range" = none →
      (∀ permission sgId sgName, checkWidePortRanges rules permission sgId sgName = []) ∧
      ∀ env groupIds,
        (sgAnalyze rules env groupIds).findings =
          ((describeSecurityGroupsCmd env groupIds).flatMap fun sg =>
            (sg.ipPermissions.getD []).flatMap fun permission =>
              checkDangerousPorts rules permission (sg.groupId.getD "unknown")
                  (sg.groupName.getD "unknown") ++
                checkAllTrafficRules rules permission (sg.groupId.getD "unknown")
                  (sg.groupName.getD "unknown")) ++
            findUnusedSecurityGroups rules env.reservations
              (describeSecurityGroupsCmd env groupIds)) ∧
    (getRuleById rules "sg-all-traffic" = none →
      (∀ permission sgId sgName, checkAllTrafficRules rules permission sgId sgName = []) ∧
      ∀ env groupIds,
        (sgAnalyze rules env groupIds).findings =
          ((describeSecurityGroupsCmd env groupIds).flatMap fun sg =>
            (sg.ipPermissions.getD []).flatMap fun permission =>
              checkDangerousPorts rules permission (sg.groupId.getD "unknown")
                  (sg.groupName.getD "unknown") ++
                checkWidePortRanges rules permission (sg.groupId.getD "unknown")
                  (sg.groupName.getD "unknown")) ++
            findUnusedSecurityGroups rules env.reservations
              (describeSecurityGroupsCmd env groupIds)) ∧
    (getRuleById rules "sg-unused" = none →
      (∀ reservations securityGroups,
        findUnusedSecurityGroups rules reservations securityGroups = []) ∧
      ∀ env groupIds,
        (sgAnalyze rules env groupIds).findings =
          (describeSecurityGroupsCmd env groupIds).flatMap fun sg =>
            (sg.ipPermissions.getD []).flatMap fun permission =>
              checkDangerousPorts rules permission (sg.groupId.getD "unknown")
                  (sg.groupName.getD "unknown") ++
                checkWidePortRanges rules permission (sg.groupId.getD "unknown")
                  (sg.groupName.getD "unknown") ++
                checkAllTrafficRules rules permission (sg.groupId.getD "unknown")
                  (sg.groupName.getD "unknown")) := by
  have hAnalyze : ∀ sg : SecurityGroup, analyzeSecurityGroup rules sg =
      (sg.ipPermissions.getD []).flatMap fun permission =>
        checkDangerousPorts rules permission (sg.groupId.getD "unknown")
            (sg.groupName.getD "unknown") ++
          checkWidePortRanges rules permission (sg.groupId.getD "unknown")
            (sg.groupName.getD "unknown") ++
          checkAllTrafficRules rules permission (sg.groupId.getD "unknown")
            (sg.groupName.getD "unknown") := by
    intro sg
    unfold analyzeSecurityGroup
    cases hperm : sg.ipPermissions with
    | none => rfl
    | some perms => rfl
  refine ⟨?_, ?_, ?_⟩
  · intro hwide
    have h1 : ∀ permission sgId sgName, checkWidePortRanges rules permission sgId sgName = [] := by
      intro permission sgId sgName
      unfold checkWidePortRanges
      cases permission.fromPort <;> cases permission.toPort <;> simp [hwide]
    refine ⟨h1, ?_⟩
    intro env groupIds
    show (describeSecurityGroupsCmd env groupIds).flatMap (analyzeSecurityGroup rules) ++
        findUnusedSecurityGroups rules env.reservations (describeSecurityGroupsCmd env groupIds) =
        _
    have hG : (describeSecurityGroupsCmd env groupIds).flatMap (analyzeSecurityGroup rules) =
        (describeSecurityGroupsCmd env groupIds).flatMap fun sg =>
          (sg.ipPermissions.getD []).flatMap fun permission =>
            checkDangerousPorts rules permission (sg.groupId.getD "unknown")
                (sg.groupName.getD "unknown") ++
              checkAllTrafficRules rules permission (sg.groupId.getD "unknown")
                (sg.groupName.getD "unknown") := by
      apply listFlatMap_congr
      intro sg _
      rw [hAnalyze sg]
      apply listFlatMap_congr
      intro permission _
      rw [h1, List.append_nil]
    rw [hG]
  · intro hall
    have h2 : ∀ permission sgId sgName, checkAllTrafficRules rules permission sgId sgName = [] := by
      intro permission sgId sgName
      simp [checkAllTrafficRules, hall]
    refine ⟨h2, ?_⟩
    intro env groupIds
    show (describeSecurityGroupsCmd env groupIds).flatMap (analyzeSecurityGroup rules) ++
        findUnusedSecurityGroups rules env.reservations (describeSecurityGroupsCmd env groupIds) =
        _
    have hG : (describeSecurityGroupsCmd env groupIds).flatMap (analyzeSecurityGroup rules) =
        (describeSecurityGroupsCmd env groupIds).flatMap fun sg =>
          (sg.ipPermissions.getD []).flatMap fun permission =>
            checkDangerousPorts rules permission (sg.groupId.getD "unknown")
                (sg.groupName.getD "unknown") ++
              checkWidePortRanges rules permission (sg.groupId.getD "unknown")
                (sg.groupName.getD "unknown") := by
      apply listFlatMap_congr
      intro sg _
      rw [hAnalyze sg]
      apply listFlatMap_congr
      intro permission _
      rw [h2, List.append_nil]
    rw [hG]
  · intro hunused
    have h3 : ∀ reservations securityGroups,
        findUnusedSecurityGroups rules reservations securityGroups = [] := by
      intro reservations securityGroups
      simp [findUnusedSecurityGroups, hunused]
    refine ⟨h3, ?_⟩
    intro env groupIds
    show (describeSecurityGroupsCmd env groupIds).flatMap (analyzeSecurityGroup rules) ++
        findUnusedSecurityGroups rules env.reservations (describeSecurityGroupsCmd env groupIds) =
        _
    rw [h3, List.append_nil]
    apply listFlatMap_congr
    intro sg _
    exact hAnalyze sg

/-- Witness for C7: three catalogs, each missing exactly one designated rule,
skip exactly that category. -/
theorem missing_rule_category_skipped_witness :
    checkWidePortRanges [sshRuleEx, allTrafficRuleEx, unusedRuleEx] privateWidePermEx
      "sg-1" "test-sg" = [] ∧
    checkAllTrafficRules [sshRuleEx, wideRuleEx, unusedRuleEx] privateWidePermEx
      "sg-1" "test-sg" = [] ∧
    findUnusedSecurityGroups [sshRuleEx, wideRuleEx, allTrafficRuleEx] []
      [{ groupId := some "sg-1", groupName := some "test-sg", ipPermissions := none }] = [] := by
  refine ⟨?_, ?_, ?_⟩
  · exact ((missing_rule_category_skipped [sshRuleEx, allTrafficRuleEx, unusedRuleEx]).1
      (by decide)).1 privateWidePermEx "sg-1" "test-sg"
  · exact ((missing_rule_category_skipped [sshRuleEx, wideRuleEx, unusedRuleEx]).2.1
      (by decide)).1 privateWidePermEx "sg-1" "test-sg"
  · exact ((missing_rule_category_skipped [sshRuleEx, wideRuleEx, allTrafficRuleEx]).2.2
      (by decide)).1 []
      [{ groupId := some "sg-1", groupName := some "test-sg", ipPermissions := none }]

/-- C9: the tool's output does not depend on includeUnused — two inputs that
agree on region and groupIds but differ in includeUnused produce identical
summary, findings and recommendations — and in particular the findings always
end with the unused-group findings, even for includeUnused = some false. -/
theorem includeUnused_no_influence (rules : List SecurityRule) (env : EC2Env)
    (defaultRegion timestamp : String) (region : Option String)
    (groupIds : Option (List String)) (b1 b2 : Option Bool) :
    (securityGroupToolExecute rules env defaultRegion timestamp
        { region := region, groupIds := groupIds, includeUnused := b1 }).summary =
      (securityGroupToolExecute rules env defaultRegion timestamp
        { region := region, groupIds := groupIds, includeUnused := b2 }).summary ∧
    (securityGroupToolExecute rules env defaultRegion timestamp
        { region := region, groupIds := groupIds, includeUnused := b1 }).findings =
      (securityGroupToolExecute rules env defaultRegion timestamp
        { region := region, groupIds := groupIds, includeUnused := b2 }).findings ∧
    (securityGroupToolExecute rules env defaultRegion timestamp
        { region := region, groupIds := groupIds, includeUnused := b1 }).recommendations =
      (securityGroupToolExecute rules env defaultRegion timestamp
        { region := region, groupIds := groupIds, includeUnused := b2 }).recommendations ∧
    (securityGroupToolExecute rules env defaultRegion timestamp
        { region := region, groupIds := groupIds, includeUnused := some false }).findings =
      (describeSecurityGroupsCmd env groupIds).flatMap (analyzeSecurityGroup rules) ++
        findUnusedSecurityGroups rules env.reservations (describeSecurityGroupsCmd env groupIds) :=
  ⟨rfl, rfl, rfl, rfl⟩

/-- C10: an instance is listed in the public-instance analysis exactly when
its public IP is truthy and its state name is "running"; every instance of
every reservation is counted in totalInstances regardless of that filter. -/
theorem piAnalyze_public_running_filter (env : EC2Env) :
    (piAnalyze env).instances =
      ((env.reservations.flatMap fun reservation => reservation.instances.getD []).filter
          isRunningPublic).map (buildPublicInstanceInfo env) ∧
    (piAnalyze env).summary.totalInstances =
      (env.reservations.flatMap fun reservation => reservation.instances.getD []).length ∧
    ∀ inst : Ec2Instance,
      isRunningPublic inst = true ↔
        isTruthyStr inst.publicIpAddress = true ∧
          inst.state.bind InstanceState.name = some "running" := by
  refine ⟨?_, rfl, ?_⟩
  · show (env.reservations.flatMap fun reservation => reservation.instances.getD []).filterMap
        (fun inst => if isRunningPublic inst then some (buildPublicInstanceInfo env inst)
          else none) = _
    exact filterMap_ite_eq_filter_map _ _ _
  · intro inst
    rw [isRunningPublic, Bool.and_eq_true, beq_iff_eq]

/-- C2: for a publicly exposed permission with both ports defined, the
dangerous-port findings are exactly one finding per catalog rule that has a
point port, the public source 0.0.0.0/0 and the permission's protocol, whose
port lies in [fromPort, toPort] inclusive; each finding carries that rule's
severity, description and recommendation and affectedRule = {port: rule.port,
protocol, source: 0.0.0.0/0 when IPv4 matched, else ::/0} (dangerFinding), and
duplicate matching rules each contribute their own finding. -/
theorem checkDangerousPorts_matching_rules (rules : List SecurityRule)
    (permission : IpPermission) (sgId sgName : String) (fp tp : Int)
    (hfp : permission.fromPort = some fp) (htp : permission.toPort = some tp)
    (hpub : ipv4PublicB permission = true ∨ ipv6PublicB permission = true) :
    checkDangerousPorts rules permission sgId sgName =
      rules.filterMap fun rule =>
        match rule.port with
        | some rp =>
          if rule.source = some "0.0.0.0/0" ∧
              rule.protocol = some (permission.ipProtocol.getD "unknown") ∧
              fp ≤ rp ∧ rp ≤ tp then
            some (dangerFinding sgId sgName rule rp (permission.ipProtocol.getD "unknown")
              (if ipv4PublicB permission then "0.0.0.0/0" else "::/0"))
          else
            none
        | none => none := by
  have hzeta : checkDangerousPorts rules permission sgId sgName =
      if (!ipv4PublicB permission && !ipv6PublicB permission) = true then
        ([] : List SecurityFinding)
      else
        (rules.filter fun rule =>
          rule.port.isSome && rule.source == some "0.0.0.0/0" &&
            rule.protocol == some (permission.ipProtocol.getD "unknown")).filterMap fun rule =>
          match permission.fromPort, permission.toPort, rule.port with
          | some fp, some tp, some rp =>
            if fp ≤ rp && rp ≤ tp then
              some (dangerFinding sgId sgName rule rp (permission.ipProtocol.getD "unknown")
                (if ipv4PublicB permission then "0.0.0.0/0" else "::/0"))
            else
              none
          | _, _, _ => none := rfl
  have hcond : (!ipv4PublicB permission && !ipv6PublicB permission) = false := by
    rcases hpub with h | h <;> rw [h] <;> simp
  rw [hzeta, hcond, if_neg Bool.false_ne_true, filter_filterMap_fuse]
  apply List.filterMap_congr
  intro rule _
  cases hrp : rule.port with
  | none => simp [hrp]
  | some rp =>
    simp only [hrp, hfp, htp, Option.isSome_some, Bool.true_and]
    by_cases hsrc : rule.source = some "0.0.0.0/0" <;>
      by_cases hproto : rule.protocol = some (permission.ipProtocol.getD "unknown") <;>
        by_cases hlo : fp ≤ rp <;>
          by_cases hhi : rp ≤ tp <;>
            simp [hsrc, hproto, hlo, hhi]

/-- Witness for C2 at the Scenario-A fixture: port 22/tcp open to 0.0.0.0/0
against the single SSH rule produces exactly its one HIGH finding. -/
theorem checkDangerousPorts_matching_rules_witness :
    checkDangerousPorts [sshRuleEx] publicSshPermEx "sg-1" "test-sg" =
      [dangerFinding "sg-1" "test-sg" sshRuleEx 22 "tcp" "0.0.0.0/0"] := by
  rw [checkDangerousPorts_matching_rules [sshRuleEx] publicSshPermEx "sg-1" "test-sg" 22 22
    rfl rfl (Or.inl (by decide))]
  decide

/-- An unattached catalog group fixture. -/
def unattachedGroupEx : SecurityGroup :=
  { groupId := some "sg-x", groupName := some "app", ipPermissions := none }

/-- An unattached catalog group named "default". -/
def defaultGroupEx : SecurityGroup :=
  { groupId := some "sg-y", groupName := some "default", ipPermissions := none }

/-- The unused-group filterMap over a catalog equals a filter followed by a
map of unusedFinding. -/
theorem unused_filterMap_eq_filter_map (used : List String) (rule : SecurityRule)
    (l : List SecurityGroup) :
    (l.filterMap fun sg =>
      match sg.groupId with
      | some gid =>
        if decide (gid ≠ "") && !used.contains gid && sg.groupName != some "default" then
          some (unusedFinding rule sg)
        else
          none
      | none => none) =
    (l.filter fun sg =>
      isTruthyStr sg.groupId && !used.contains (sg.groupId.getD "") &&
        sg.groupName != some "default").map (unusedFinding rule) := by
  induction l with
  | nil => rfl
  | cons sg sgs ih =>
    have hstep : (match sg.groupId with
        | some gid =>
          if decide (gid ≠ "") && !used.contains gid && sg.groupName != some "default" then
            some (unusedFinding rule sg)
          else
            none
        | none => none) =
        if (isTruthyStr sg.groupId && !used.contains (sg.groupId.getD "") &&
            sg.groupName != some "default") = true then
          some (unusedFinding rule sg)
        else
          none := by
      cases hid : sg.groupId with
      | none => rfl
      | some gid => rfl
    rw [List.filterMap_cons, List.filter_cons, hstep]
    by_cases hc : (isTruthyStr sg.groupId && !used.contains (sg.groupId.getD "") &&
        sg.groupName != some "default") = true
    · rw [if_pos hc, if_pos hc, List.map_cons, ih]
    · rw [if_neg hc, if_neg hc, ih]

/-- C6: with the sg-unused rule present (of LOW severity), the unused-group
findings are exactly one finding per catalog group whose id is truthy, not in
the active set and whose name is not "default"; every finding comes from that
rule with LOW severity, and no reported group is named "default". -/
theorem findUnusedSecurityGroups_spec (rules : List SecurityRule)
    (reservations : List Reservation) (securityGroups : List SecurityGroup)
    (rule : SecurityRule)
    (hrule : getRuleById rules "sg-unused" = some rule)
    (hsev : rule.severity = Severity.LOW) :
    findUnusedSecurityGroups rules reservations securityGroups =
      (securityGroups.filter fun sg =>
        isTruthyStr sg.groupId &&
          !(usedSecurityGroupIds reservations).contains (sg.groupId.getD "") &&
          sg.groupName != some "default").map (unusedFinding rule) ∧
    (∀ f ∈ findUnusedSecurityGroups rules reservations securityGroups,
      f.ruleId = rule.id ∧ f.severity = Severity.LOW) ∧
    (∀ f ∈ findUnusedSecurityGroups rules reservations securityGroups,
      f.securityGroupName ≠ "default") := by
  have hz : findUnusedSecurityGroups rules reservations securityGroups =
      securityGroups.filterMap fun sg =>
        match sg.groupId with
        | some gid =>
          if decide (gid ≠ "") && !(usedSecurityGroupIds reservations).contains gid &&
              sg.groupName != some "default" then
            some (unusedFinding rule sg)
          else
            none
        | none => none := by
    unfold findUnusedSecurityGroups
    rw [hrule]
  have hmain : findUnusedSecurityGroups rules reservations securityGroups =
      (securityGroups.filter fun sg =>
        isTruthyStr sg.groupId &&
          !(usedSecurityGroupIds reservations).contains (sg.groupId.getD "") &&
          sg.groupName != some "default").map (unusedFinding rule) := by
    rw [hz]
    exact unused_filterMap_eq_filter_map (usedSecurityGroupIds reservations) rule securityGroups
  refine ⟨hmain, ?_, ?_⟩
  · intro f hf
    rw [hmain, List.mem_map] at hf
    obtain ⟨sg, _, rfl⟩ := hf
    exact ⟨rfl, hsev⟩
  · intro f hf
    rw [hmain, List.mem_map] at hf
    obtain ⟨sg, hsg, rfl⟩ := hf
    rw [List.mem_filter, Bool.and_eq_true, Bool.and_eq_true] at hsg
    have h3 : sg.groupName ≠ some "default" := by
      have := hsg.2.2
      rwa [bne_iff_ne] at this
    have hpn : (unusedFinding rule sg).securityGroupName = sg.groupName.getD "unknown" := rfl
    cases hn : sg.groupName with
    | none =>
      show (unusedFinding rule sg).securityGroupName ≠ "default"
      rw [hpn, hn]
      decide
    | some s =>
      have hs : s ≠ "default" := fun heq => h3 (by rw [hn, heq])
      show (unusedFinding rule sg).securityGroupName ≠ "default"
      rw [hpn, hn]
      simpa using hs

/-- Witness for C6: of two unattached groups, only the one not named
"default" is flagged, exactly once, by the LOW sg-unused rule. -/
theorem findUnusedSecurityGroups_spec_witness :
    findUnusedSecurityGroups [unusedRuleEx] [] [unattachedGroupEx, defaultGroupEx] =
      [unusedFinding unusedRuleEx unattachedGroupEx] := by
  rw [(findUnusedSecurityGroups_spec [unusedRuleEx] [] [unattachedGroupEx, defaultGroupEx]
    unusedRuleEx (by decide) rfl).1]
  decide
